import Mathlib

/-!
Shallow embedding of the PFX message-framing engine (src/pfx.c of dsock).

The engine wraps a bytestream transport and speaks a length-prefixed
message protocol: each message is an 8-byte big-endian length followed by
the payload; the all-ones 64-bit value is a termination sentinel.

Modelling decisions, each traceable to the C source:
  * `PfxSock` carries the four flag bits of `struct pfx_sock`
    (`indone`, `outdone`, `inerr`, `outerr`); the handles and vtables are
    bookkeeping with no protocol content and are elided.
  * The wrapped bytestream handle `obj->s` is modelled by `Transport`:
    `inbuf` is the ordered queue of bytes available to `brecv`, `out` the
    bytes written so far by `bsend`, `sendFail` injects a transport-level
    write failure (deadline expiry or peer reset), `closed` records
    whether `hclose` was called on the handle, and `events` logs every
    bytestream operation together with the deadline it was given.
  * `brecv t n d` succeeds iff `n` bytes are buffered; a short buffer
    models deadline expiry / connection failure, which in the C contract
    makes `brecv` fail.  A zero-length read trivially succeeds.
  * Scatter/gather arrays (`struct iovec`) are modelled flattened: a
    message is the concatenation of its buffers (`iov_copy` + `bsendv`
    writes exactly that), and a destination is its total capacity
    `iov_size(iov, iovlen)` (`iov_cut` + `brecvv` fills the first bytes
    in order).
  * C `errno` values become the `Err` enumeration; `Err.ETRANSPORT`
    stands for whatever errno a failing bytestream operation left behind.
-/

/-- Errno values surfaced by pfx.c: `EPIPE`, `ECONNRESET`, `EMSGSIZE`,
and `ETRANSPORT` for an error propagated verbatim from the bytestream
transport. -/
inductive Err where
  | EPIPE
  | ECONNRESET
  | EMSGSIZE
  | ETRANSPORT
  deriving DecidableEq, Repr

/-- One bytestream operation performed on the wrapped transport handle,
with the deadline it was given. -/
inductive TEvent where
  | sent (bytes : List Nat) (deadline : Int)
  | sendFailed (deadline : Int)
  | recvd (bytes : List Nat) (deadline : Int)
  | recvFailed (deadline : Int)
  deriving DecidableEq, Repr

/-- The wrapped bytestream handle (`obj->s` in pfx.c). -/
structure Transport where
  inbuf : List Nat
  out : List Nat
  sendFail : Bool
  closed : Bool
  events : List TEvent
  deriving DecidableEq, Repr

/-- Model of `bsend(s, buf, len, deadline)`: write exactly these bytes by
the deadline, or fail (injected via `sendFail`). -/
def bsend (t : Transport) (bytes : List Nat) (deadline : Int) : Transport × Bool :=
  if t.sendFail then
    ({ t with events := t.events ++ [TEvent.sendFailed deadline] }, false)
  else
    ({ t with out := t.out ++ bytes,
              events := t.events ++ [TEvent.sent bytes deadline] }, true)

/-- Model of `brecv(s, buf, n, deadline)`: read exactly `n` bytes by the
deadline; fails when fewer than `n` bytes ever arrive. -/
def brecv (t : Transport) (n : Nat) (deadline : Int) : Transport × Option (List Nat) :=
  if n ≤ t.inbuf.length then
    ({ t with inbuf := t.inbuf.drop n,
              events := t.events ++ [TEvent.recvd (t.inbuf.take n) deadline] },
     some (t.inbuf.take n))
  else
    ({ t with events := t.events ++ [TEvent.recvFailed deadline] }, none)

/-- `dsock_putll`: serialize a 64-bit value big-endian into 8 bytes
(the C cast `(uint64_t)len` truncates, hence the `% 256` on the top
byte as well). -/
def dsock_putll (x : Nat) : List Nat :=
  [x / 2 ^ 56 % 256, x / 2 ^ 48 % 256, x / 2 ^ 40 % 256, x / 2 ^ 32 % 256,
   x / 2 ^ 24 % 256, x / 2 ^ 16 % 256, x / 2 ^ 8 % 256, x % 256]

/-- `dsock_getll`: decode 8 bytes as a big-endian unsigned 64-bit value. -/
def dsock_getll (bs : List Nat) : Nat :=
  bs.foldl (fun a b => a * 256 + b) 0

/-- The byte image of `uint64_t sz = 0xffffffffffffffff` that `pfx_hdone`
writes: eight `0xff` bytes (the all-ones value has this representation in
either byte order). -/
def sentinelBytes : List Nat :=
  List.replicate 8 255

/-- The flag bits of `struct pfx_sock`. -/
structure PfxSock where
  indone : Bool
  outdone : Bool
  inerr : Bool
  outerr : Bool
  deriving DecidableEq, Repr

/-- The engine state right after `pfx_start`: all four flags clear. -/
def pfx_start : PfxSock :=
  ⟨false, false, false, false⟩

/-- `pfx_hdone`: send the termination marker (with no deadline, `-1`),
then set `outdone`; guarded by `outdone` (`EPIPE`) and `outerr`
(`ECONNRESET`). -/
def pfx_hdone (obj : PfxSock) (t : Transport) : PfxSock × Transport × Option Err :=
  if obj.outdone then (obj, t, some Err.EPIPE)
  else if obj.outerr then (obj, t, some Err.ECONNRESET)
  else
    let r := bsend t sentinelBytes (-1)
    if r.2 then ({ obj with outdone := true }, r.1, none)
    else ({ obj with outerr := true }, r.1, some Err.ETRANSPORT)

/-- `pfx_msendv`: one logical write of the 8-byte big-endian length
header followed by the payload, under the caller's deadline. -/
def pfx_msendv (obj : PfxSock) (t : Transport) (msg : List Nat) (deadline : Int) :
    PfxSock × Transport × Option Err :=
  if obj.outdone then (obj, t, some Err.EPIPE)
  else if obj.outerr then (obj, t, some Err.ECONNRESET)
  else
    let r := bsend t (dsock_putll msg.length ++ msg) deadline
    if r.2 then (obj, r.1, none)
    else ({ obj with outerr := true }, r.1, some Err.ETRANSPORT)

/-- `pfx_mrecvv`: read the 8-byte header, detect the sentinel, check the
declared size against the destination capacity, then read the payload.
The result carries the delivered payload bytes (whose length is the
returned `ssize_t`). -/
def pfx_mrecvv (obj : PfxSock) (t : Transport) (cap : Nat) (deadline : Int) :
    PfxSock × Transport × Except Err (List Nat) :=
  if obj.indone then (obj, t, Except.error Err.EPIPE)
  else if obj.inerr then (obj, t, Except.error Err.ECONNRESET)
  else
    match brecv t 8 deadline with
    | (t1, none) => ({ obj with inerr := true }, t1, Except.error Err.ETRANSPORT)
    | (t1, some szbuf) =>
      let sz := dsock_getll szbuf
      if sz = 2 ^ 64 - 1 then
        ({ obj with indone := true }, t1, Except.error Err.EPIPE)
      else if cap < sz then
        ({ obj with inerr := true }, t1, Except.error Err.EMSGSIZE)
      else
        match brecv t1 sz deadline with
        | (t2, none) => ({ obj with inerr := true }, t2, Except.error Err.ETRANSPORT)
        | (t2, some bs) => (obj, t2, Except.ok bs)


/-- One direction of "is this event a receive stamped with deadline
`d`": used to state that the drain loop of `pfx_stop` runs all its
receives under the caller's deadline. -/
def TEvent.recvAt (e : TEvent) (d : Int) : Prop :=
  (∃ bs, e = TEvent.recvd bs d) ∨ e = TEvent.recvFailed d

/-- The drain loop of `pfx_stop`: receive with a zero-capacity
destination until an error; `EPIPE` (last component `none`) means the
peer's termination marker was observed. -/
def drain (d : Int) (obj : PfxSock) (t : Transport) : PfxSock × Transport × Option Err :=
  match hr : pfx_mrecvv obj t 0 d with
  | (obj1, t1, Except.error e) => (obj1, t1, if e = Err.EPIPE then none else some e)
  | (obj1, t1, Except.ok bs) => drain d obj1 t1
termination_by t.inbuf.length
decreasing_by
  by_cases h1 : obj.indone = true
  · simp [pfx_mrecvv, h1] at hr
  rw [Bool.not_eq_true] at h1
  by_cases h2 : obj.inerr = true
  · simp [pfx_mrecvv, h1, h2] at hr
  rw [Bool.not_eq_true] at h2
  by_cases h3 : 8 ≤ t.inbuf.length
  · by_cases h4 : dsock_getll (t.inbuf.take 8) = 18446744073709551615
    · simp [pfx_mrecvv, brecv, h1, h2, h3, h4] at hr
    · by_cases h5 : 0 < dsock_getll (t.inbuf.take 8)
      · simp [pfx_mrecvv, brecv, h1, h2, h3, h4, h5] at hr
      · have h50 : dsock_getll (t.inbuf.take 8) = 0 := by omega
        simp [pfx_mrecvv, brecv, h1, h2, h3, h4, h50] at hr
        obtain ⟨-, ht, -⟩ := hr
        rw [← ht]
        simp
        omega
  · rw [Nat.not_le] at h3
    simp [pfx_mrecvv, brecv, h1, h2, Nat.not_le.mpr h3] at hr

/-- `pfx_hclose`: close the wrapped bytestream handle and free the
engine; only the transport side effect is observable. -/
def pfx_hclose (t : Transport) : Transport :=
  { t with closed := true }

/-- `pfx_stop`: fail up front if a path is broken; send the termination
marker if not already done; drain until the peer's marker is observed,
then hand the transport back open.  On any error the transport is closed
(`pfx_hclose`) and returned inside the error for inspection. -/
def pfx_stop (obj : PfxSock) (t : Transport) (deadline : Int) :
    Except (Err × Transport) Transport :=
  if obj.inerr || obj.outerr then Except.error (Err.ECONNRESET, pfx_hclose t)
  else
    match (if obj.outdone then (obj, t, (none : Option Err)) else pfx_hdone obj t) with
    | (_, t1, some e) => Except.error (e, pfx_hclose t1)
    | (obj1, t1, none) =>
      match drain deadline obj1 t1 with
      | (_, t2, none) => Except.ok t2
      | (_, t2, some e) => Except.error (e, pfx_hclose t2)

/-- The transport a finished `pfx_stop` left behind: the recovered open
handle on success, the closed handle on failure. -/
def stopTransport (r : Except (Err × Transport) Transport) : Transport :=
  match r with
  | Except.ok u => u
  | Except.error (_, tc) => tc


/-- Receive when the peer already terminated: fails `EPIPE`, touching
neither the state nor the transport. -/
theorem pfx_mrecvv_indone (obj : PfxSock) (t : Transport) (cap : Nat) (d : Int)
    (h : obj.indone = true) :
    pfx_mrecvv obj t cap d = (obj, t, Except.error Err.EPIPE) := by
  simp [pfx_mrecvv, h]

/-- Receive on a broken receive path: fails `ECONNRESET`, touching
neither the state nor the transport. -/
theorem pfx_mrecvv_inerr (obj : PfxSock) (t : Transport) (cap : Nat) (d : Int)
    (h1 : obj.indone = false) (h2 : obj.inerr = true) :
    pfx_mrecvv obj t cap d = (obj, t, Except.error Err.ECONNRESET) := by
  simp [pfx_mrecvv, h1, h2]

/-- Receive when the header read fails: the receive path breaks and the
transport error is surfaced. -/
theorem pfx_mrecvv_hdrfail (obj : PfxSock) (t : Transport) (cap : Nat) (d : Int)
    (h1 : obj.indone = false) (h2 : obj.inerr = false)
    (h3 : t.inbuf.length < 8) :
    pfx_mrecvv obj t cap d =
      ({ obj with inerr := true },
       { t with events := t.events ++ [TEvent.recvFailed d] },
       Except.error Err.ETRANSPORT) := by
  simp [pfx_mrecvv, brecv, h1, h2, Nat.not_le.mpr h3]

/-- Receive of the peer's termination marker: sets `indone`, consumes
exactly the 8 header bytes, fails `EPIPE`. -/
theorem pfx_mrecvv_sentinel (obj : PfxSock) (t : Transport) (cap : Nat) (d : Int)
    (h1 : obj.indone = false) (h2 : obj.inerr = false)
    (h3 : 8 ≤ t.inbuf.length)
    (h4 : dsock_getll (t.inbuf.take 8) = 2 ^ 64 - 1) :
    pfx_mrecvv obj t cap d =
      ({ obj with indone := true },
       { t with inbuf := t.inbuf.drop 8,
                events := t.events ++ [TEvent.recvd (t.inbuf.take 8) d] },
       Except.error Err.EPIPE) := by
  simp [pfx_mrecvv, brecv, h1, h2, h3, h4]

/-- Receive of a message longer than the destination capacity: the
receive path breaks with `EMSGSIZE`; the header stays consumed. -/
theorem pfx_mrecvv_toobig (obj : PfxSock) (t : Transport) (cap : Nat) (d : Int)
    (h1 : obj.indone = false) (h2 : obj.inerr = false)
    (h3 : 8 ≤ t.inbuf.length)
    (h4 : dsock_getll (t.inbuf.take 8) ≠ 2 ^ 64 - 1)
    (h5 : cap < dsock_getll (t.inbuf.take 8)) :
    pfx_mrecvv obj t cap d =
      ({ obj with inerr := true },
       { t with inbuf := t.inbuf.drop 8,
                events := t.events ++ [TEvent.recvd (t.inbuf.take 8) d] },
       Except.error Err.EMSGSIZE) := by
  have h4x : dsock_getll (t.inbuf.take 8) ≠ 18446744073709551615 := by simpa using h4
  simp [pfx_mrecvv, brecv, h1, h2, h3, h4x, h5]

/-- Receive when the payload read fails: the receive path breaks and the
transport error is surfaced. -/
theorem pfx_mrecvv_bodyfail (obj : PfxSock) (t : Transport) (cap : Nat) (d : Int)
    (h1 : obj.indone = false) (h2 : obj.inerr = false)
    (h3 : 8 ≤ t.inbuf.length)
    (h4 : dsock_getll (t.inbuf.take 8) ≠ 2 ^ 64 - 1)
    (h5 : dsock_getll (t.inbuf.take 8) ≤ cap)
    (h6 : t.inbuf.length - 8 < dsock_getll (t.inbuf.take 8)) :
    pfx_mrecvv obj t cap d =
      ({ obj with inerr := true },
       { t with inbuf := t.inbuf.drop 8,
                events := t.events ++ [TEvent.recvd (t.inbuf.take 8) d,
                                       TEvent.recvFailed d] },
       Except.error Err.ETRANSPORT) := by
  have h4x : dsock_getll (t.inbuf.take 8) ≠ 18446744073709551615 := by simpa using h4
  simp [pfx_mrecvv, brecv, h1, h2, h3, h4x, Nat.not_lt.mpr h5, Nat.not_le.mpr h6]

/-- Successful receive: the declared number of payload bytes is consumed
and delivered; the state is untouched. -/
theorem pfx_mrecvv_ok (obj : PfxSock) (t : Transport) (cap : Nat) (d : Int)
    (h1 : obj.indone = false) (h2 : obj.inerr = false)
    (h3 : 8 ≤ t.inbuf.length)
    (h4 : dsock_getll (t.inbuf.take 8) ≠ 2 ^ 64 - 1)
    (h5 : dsock_getll (t.inbuf.take 8) ≤ cap)
    (h6 : dsock_getll (t.inbuf.take 8) ≤ t.inbuf.length - 8) :
    pfx_mrecvv obj t cap d =
      (obj,
       { t with inbuf := t.inbuf.drop (8 + dsock_getll (t.inbuf.take 8)),
                events := t.events ++
                  [TEvent.recvd (t.inbuf.take 8) d,
                   TEvent.recvd ((t.inbuf.drop 8).take (dsock_getll (t.inbuf.take 8))) d] },
       Except.ok ((t.inbuf.drop 8).take (dsock_getll (t.inbuf.take 8)))) := by
  have h4x : dsock_getll (t.inbuf.take 8) ≠ 18446744073709551615 := by simpa using h4
  simp [pfx_mrecvv, brecv, h1, h2, h3, h4x, Nat.not_lt.mpr h5, h6]


/-- A successful `pfx_mrecvv` consumed the 8-byte header (and the
payload), so the input queue strictly shrinks. -/
theorem pfx_mrecvv_ok_shrink (obj : PfxSock) (t : Transport) (cap : Nat) (d : Int)
    (bs : List Nat) (h : (pfx_mrecvv obj t cap d).2.2 = Except.ok bs) :
    (pfx_mrecvv obj t cap d).2.1.inbuf.length < t.inbuf.length := by
  by_cases h1 : obj.indone = true
  · rw [pfx_mrecvv_indone obj t cap d h1] at h; exact absurd h (by simp)
  rw [Bool.not_eq_true] at h1
  by_cases h2 : obj.inerr = true
  · rw [pfx_mrecvv_inerr obj t cap d h1 h2] at h; exact absurd h (by simp)
  rw [Bool.not_eq_true] at h2
  by_cases h3 : 8 ≤ t.inbuf.length
  · by_cases h4 : dsock_getll (t.inbuf.take 8) = 2 ^ 64 - 1
    · rw [pfx_mrecvv_sentinel obj t cap d h1 h2 h3 h4] at h; exact absurd h (by simp)
    by_cases h5 : cap < dsock_getll (t.inbuf.take 8)
    · rw [pfx_mrecvv_toobig obj t cap d h1 h2 h3 h4 h5] at h; exact absurd h (by simp)
    rw [Nat.not_lt] at h5
    by_cases h6 : dsock_getll (t.inbuf.take 8) ≤ t.inbuf.length - 8
    · rw [pfx_mrecvv_ok obj t cap d h1 h2 h3 h4 h5 h6]
      simp
      omega
    · rw [Nat.not_le] at h6
      rw [pfx_mrecvv_bodyfail obj t cap d h1 h2 h3 h4 h5 h6] at h
      exact absurd h (by simp)
  · rw [Nat.not_le] at h3
    rw [pfx_mrecvv_hdrfail obj t cap d h1 h2 h3] at h; exact absurd h (by simp)

/-- The length header is always exactly 8 bytes. -/
theorem putll_length (x : Nat) : (dsock_putll x).length = 8 := by
  simp [dsock_putll]

/-- Big-endian encode/decode roundtrip, modulo the C truncation to
64 bits. -/
theorem getll_putll (x : Nat) : dsock_getll (dsock_putll x) = x % 2 ^ 64 := by
  simp [dsock_putll, dsock_getll]
  omega

/-- The encoding of the all-ones value is the termination marker's byte
image. -/
theorem putll_sentinel : dsock_putll (2 ^ 64 - 1) = sentinelBytes := by
  decide

/-- The termination marker decodes to the sentinel value. -/
theorem getll_sentinel : dsock_getll sentinelBytes = 2 ^ 64 - 1 := by
  decide

/-- `pfx_hdone` when already done: `EPIPE`, nothing touched. -/
theorem pfx_hdone_outdone (obj : PfxSock) (t : Transport) (h : obj.outdone = true) :
    pfx_hdone obj t = (obj, t, some Err.EPIPE) := by
  simp [pfx_hdone, h]

/-- `pfx_hdone` on a broken send path: `ECONNRESET`, nothing touched. -/
theorem pfx_hdone_outerr (obj : PfxSock) (t : Transport)
    (h1 : obj.outdone = false) (h2 : obj.outerr = true) :
    pfx_hdone obj t = (obj, t, some Err.ECONNRESET) := by
  simp [pfx_hdone, h1, h2]

/-- Successful `pfx_hdone`: writes exactly the 8-byte all-ones marker,
with the no-deadline value `-1`, and sets `outdone`. -/
theorem pfx_hdone_ok (obj : PfxSock) (t : Transport)
    (h1 : obj.outdone = false) (h2 : obj.outerr = false) (h3 : t.sendFail = false) :
    pfx_hdone obj t =
      ({ obj with outdone := true },
       { t with out := t.out ++ sentinelBytes,
                events := t.events ++ [TEvent.sent sentinelBytes (-1)] },
       none) := by
  simp [pfx_hdone, bsend, h1, h2, h3]

/-- `pfx_hdone` whose marker write fails: sets `outerr`, leaves
`outdone` clear, surfaces the transport error. -/
theorem pfx_hdone_fail (obj : PfxSock) (t : Transport)
    (h1 : obj.outdone = false) (h2 : obj.outerr = false) (h3 : t.sendFail = true) :
    pfx_hdone obj t =
      ({ obj with outerr := true },
       { t with events := t.events ++ [TEvent.sendFailed (-1)] },
       some Err.ETRANSPORT) := by
  simp [pfx_hdone, bsend, h1, h2, h3]

/-- `pfx_msendv` after `done`: `EPIPE`, nothing touched. -/
theorem pfx_msendv_outdone (obj : PfxSock) (t : Transport) (msg : List Nat) (d : Int)
    (h : obj.outdone = true) :
    pfx_msendv obj t msg d = (obj, t, some Err.EPIPE) := by
  simp [pfx_msendv, h]

/-- `pfx_msendv` on a broken send path: `ECONNRESET`, nothing touched. -/
theorem pfx_msendv_outerr (obj : PfxSock) (t : Transport) (msg : List Nat) (d : Int)
    (h1 : obj.outdone = false) (h2 : obj.outerr = true) :
    pfx_msendv obj t msg d = (obj, t, some Err.ECONNRESET) := by
  simp [pfx_msendv, h1, h2]

/-- Successful `pfx_msendv`: one write of header plus payload under the
caller's deadline; the state is untouched. -/
theorem pfx_msendv_ok (obj : PfxSock) (t : Transport) (msg : List Nat) (d : Int)
    (h1 : obj.outdone = false) (h2 : obj.outerr = false) (h3 : t.sendFail = false) :
    pfx_msendv obj t msg d =
      (obj,
       { t with out := t.out ++ (dsock_putll msg.length ++ msg),
                events := t.events ++ [TEvent.sent (dsock_putll msg.length ++ msg) d] },
       none) := by
  simp [pfx_msendv, bsend, h1, h2, h3]

/-- `pfx_msendv` whose write fails: sets `outerr` and surfaces the
transport error. -/
theorem pfx_msendv_fail (obj : PfxSock) (t : Transport) (msg : List Nat) (d : Int)
    (h1 : obj.outdone = false) (h2 : obj.outerr = false) (h3 : t.sendFail = true) :
    pfx_msendv obj t msg d =
      ({ obj with outerr := true },
       { t with events := t.events ++ [TEvent.sendFailed d] },
       some Err.ETRANSPORT) := by
  simp [pfx_msendv, bsend, h1, h2, h3]

/-- One unfolding of the drain loop when the receive errors out. -/
theorem drain_step_err (d : Int) (obj obj1 : PfxSock) (t t1 : Transport) (e : Err)
    (h : pfx_mrecvv obj t 0 d = (obj1, t1, Except.error e)) :
    drain d obj t = (obj1, t1, if e = Err.EPIPE then none else some e) := by
  rw [drain, h]

/-- One unfolding of the drain loop when a message was received and
discarded. -/
theorem drain_step_ok (d : Int) (obj obj1 : PfxSock) (t t1 : Transport) (bs : List Nat)
    (h : pfx_mrecvv obj t 0 d = (obj1, t1, Except.ok bs)) :
    drain d obj t = drain d obj1 t1 := by
  rw [drain, h]

/-- Case split on everything `pfx_mrecvv` can do to the engine state:
it returns it untouched, sets `indone`, or sets `inerr`. -/
theorem pfx_mrecvv_shape (obj : PfxSock) (t : Transport) (cap : Nat) (d : Int) :
    (pfx_mrecvv obj t cap d).1 = obj ∨
    (pfx_mrecvv obj t cap d).1 = { obj with indone := true } ∨
    (pfx_mrecvv obj t cap d).1 = { obj with inerr := true } := by
  by_cases h1 : obj.indone = true
  · rw [pfx_mrecvv_indone obj t cap d h1]; left; rfl
  rw [Bool.not_eq_true] at h1
  by_cases h2 : obj.inerr = true
  · rw [pfx_mrecvv_inerr obj t cap d h1 h2]; left; rfl
  rw [Bool.not_eq_true] at h2
  by_cases h3 : 8 ≤ t.inbuf.length
  · by_cases h4 : dsock_getll (t.inbuf.take 8) = 2 ^ 64 - 1
    · rw [pfx_mrecvv_sentinel obj t cap d h1 h2 h3 h4]; right; left; rfl
    by_cases h5 : cap < dsock_getll (t.inbuf.take 8)
    · rw [pfx_mrecvv_toobig obj t cap d h1 h2 h3 h4 h5]; right; right; rfl
    rw [Nat.not_lt] at h5
    by_cases h6 : dsock_getll (t.inbuf.take 8) ≤ t.inbuf.length - 8
    · rw [pfx_mrecvv_ok obj t cap d h1 h2 h3 h4 h5 h6]; left; rfl
    · rw [Nat.not_le] at h6
      rw [pfx_mrecvv_bodyfail obj t cap d h1 h2 h3 h4 h5 h6]; right; right; rfl
  · rw [Nat.not_le] at h3
    rw [pfx_mrecvv_hdrfail obj t cap d h1 h2 h3]; right; right; rfl

/-- Case split on everything `pfx_msendv` can do to the engine state. -/
theorem pfx_msendv_shape (obj : PfxSock) (t : Transport) (msg : List Nat) (d : Int) :
    (pfx_msendv obj t msg d).1 = obj ∨
    (pfx_msendv obj t msg d).1 = { obj with outerr := true } := by
  by_cases h1 : obj.outdone = true
  · rw [pfx_msendv_outdone obj t msg d h1]; left; rfl
  rw [Bool.not_eq_true] at h1
  by_cases h2 : obj.outerr = true
  · rw [pfx_msendv_outerr obj t msg d h1 h2]; left; rfl
  rw [Bool.not_eq_true] at h2
  by_cases h3 : t.sendFail = true
  · rw [pfx_msendv_fail obj t msg d h1 h2 h3]; right; rfl
  · rw [Bool.not_eq_true] at h3
    rw [pfx_msendv_ok obj t msg d h1 h2 h3]; left; rfl

/-- Case split on everything `pfx_hdone` can do to the engine state. -/
theorem pfx_hdone_shape (obj : PfxSock) (t : Transport) :
    (pfx_hdone obj t).1 = obj ∨
    (pfx_hdone obj t).1 = { obj with outdone := true } ∨
    (pfx_hdone obj t).1 = { obj with outerr := true } := by
  by_cases h1 : obj.outdone = true
  · rw [pfx_hdone_outdone obj t h1]; left; rfl
  rw [Bool.not_eq_true] at h1
  by_cases h2 : obj.outerr = true
  · rw [pfx_hdone_outerr obj t h1 h2]; left; rfl
  rw [Bool.not_eq_true] at h2
  by_cases h3 : t.sendFail = true
  · rw [pfx_hdone_fail obj t h1 h2 h3]; right; right; rfl
  · rw [Bool.not_eq_true] at h3
    rw [pfx_hdone_ok obj t h1 h2 h3]; right; left; rfl

/-- The receive path never touches the send-side flags. -/
theorem pfx_mrecvv_outflags (obj : PfxSock) (t : Transport) (cap : Nat) (d : Int) :
    (pfx_mrecvv obj t cap d).1.outdone = obj.outdone ∧
    (pfx_mrecvv obj t cap d).1.outerr = obj.outerr := by
  rcases pfx_mrecvv_shape obj t cap d with h | h | h <;> rw [h] <;> exact ⟨rfl, rfl⟩

/-- The send path never touches the receive-side flags. -/
theorem pfx_msendv_inflags (obj : PfxSock) (t : Transport) (msg : List Nat) (d : Int) :
    (pfx_msendv obj t msg d).1.indone = obj.indone ∧
    (pfx_msendv obj t msg d).1.inerr = obj.inerr := by
  rcases pfx_msendv_shape obj t msg d with h | h <;> rw [h] <;> exact ⟨rfl, rfl⟩

/-- `pfx_hdone` never touches the receive-side flags. -/
theorem pfx_hdone_inflags (obj : PfxSock) (t : Transport) :
    (pfx_hdone obj t).1.indone = obj.indone ∧
    (pfx_hdone obj t).1.inerr = obj.inerr := by
  rcases pfx_hdone_shape obj t with h | h | h <;> rw [h] <;> exact ⟨rfl, rfl⟩

/-- A set `outerr` survives any send-path operation. -/
theorem pfx_outerr_monotone (obj : PfxSock) (t : Transport) (msg : List Nat) (d : Int)
    (h : obj.outerr = true) :
    (pfx_msendv obj t msg d).1.outerr = true ∧ (pfx_hdone obj t).1.outerr = true := by
  constructor
  · rcases pfx_msendv_shape obj t msg d with hs | hs <;> rw [hs] <;> simp [h]
  · rcases pfx_hdone_shape obj t with hs | hs | hs <;> rw [hs] <;> simp [h]

/-- A set `inerr` survives any receive. -/
theorem pfx_inerr_monotone (obj : PfxSock) (t : Transport) (cap : Nat) (d : Int)
    (h : obj.inerr = true) :
    (pfx_mrecvv obj t cap d).1.inerr = true := by
  rcases pfx_mrecvv_shape obj t cap d with hs | hs | hs <;> rw [hs] <;> simp [h]

/-- Receive ignores the send-side flags entirely: flipping `outdone` or
`outerr` changes neither the transport effect, nor the result, nor how
the receive-side flags evolve. -/
theorem pfx_mrecvv_ignores_outflags (obj : PfxSock) (b1 b2 : Bool) (t : Transport)
    (cap : Nat) (d : Int) :
    (pfx_mrecvv { obj with outdone := b1, outerr := b2 } t cap d).2 =
      (pfx_mrecvv obj t cap d).2 ∧
    (pfx_mrecvv { obj with outdone := b1, outerr := b2 } t cap d).1.indone =
      (pfx_mrecvv obj t cap d).1.indone ∧
    (pfx_mrecvv { obj with outdone := b1, outerr := b2 } t cap d).1.inerr =
      (pfx_mrecvv obj t cap d).1.inerr := by
  by_cases h1 : obj.indone = true
  · rw [pfx_mrecvv_indone obj t cap d h1, pfx_mrecvv_indone { obj with outdone := b1, outerr := b2 } t cap d h1]
    exact ⟨rfl, rfl, rfl⟩
  rw [Bool.not_eq_true] at h1
  by_cases h2 : obj.inerr = true
  · rw [pfx_mrecvv_inerr obj t cap d h1 h2, pfx_mrecvv_inerr { obj with outdone := b1, outerr := b2 } t cap d h1 h2]
    exact ⟨rfl, rfl, rfl⟩
  rw [Bool.not_eq_true] at h2
  by_cases h3 : 8 ≤ t.inbuf.length
  · by_cases h4 : dsock_getll (t.inbuf.take 8) = 2 ^ 64 - 1
    · rw [pfx_mrecvv_sentinel obj t cap d h1 h2 h3 h4,
          pfx_mrecvv_sentinel { obj with outdone := b1, outerr := b2 } t cap d h1 h2 h3 h4]
      exact ⟨rfl, rfl, rfl⟩
    by_cases h5 : cap < dsock_getll (t.inbuf.take 8)
    · rw [pfx_mrecvv_toobig obj t cap d h1 h2 h3 h4 h5,
          pfx_mrecvv_toobig { obj with outdone := b1, outerr := b2 } t cap d h1 h2 h3 h4 h5]
      exact ⟨rfl, rfl, rfl⟩
    rw [Nat.not_lt] at h5
    by_cases h6 : dsock_getll (t.inbuf.take 8) ≤ t.inbuf.length - 8
    · rw [pfx_mrecvv_ok obj t cap d h1 h2 h3 h4 h5 h6,
          pfx_mrecvv_ok { obj with outdone := b1, outerr := b2 } t cap d h1 h2 h3 h4 h5 h6]
      exact ⟨rfl, rfl, rfl⟩
    · rw [Nat.not_le] at h6
      rw [pfx_mrecvv_bodyfail obj t cap d h1 h2 h3 h4 h5 h6,
          pfx_mrecvv_bodyfail { obj with outdone := b1, outerr := b2 } t cap d h1 h2 h3 h4 h5 h6]
      exact ⟨rfl, rfl, rfl⟩
  · rw [Nat.not_le] at h3
    rw [pfx_mrecvv_hdrfail obj t cap d h1 h2 h3, pfx_mrecvv_hdrfail { obj with outdone := b1, outerr := b2 } t cap d h1 h2 h3]
    exact ⟨rfl, rfl, rfl⟩

/-- A receive touches the transport only by consuming input bytes and
logging receive events stamped with its own deadline. -/
theorem pfx_mrecvv_transport (obj : PfxSock) (t : Transport) (cap : Nat) (d : Int) :
    (pfx_mrecvv obj t cap d).2.1.out = t.out ∧
    (pfx_mrecvv obj t cap d).2.1.sendFail = t.sendFail ∧
    (pfx_mrecvv obj t cap d).2.1.closed = t.closed ∧
    ∃ es, (pfx_mrecvv obj t cap d).2.1.events = t.events ++ es ∧
      ∀ e ∈ es, e.recvAt d := by
  by_cases h1 : obj.indone = true
  · rw [pfx_mrecvv_indone obj t cap d h1]
    exact ⟨rfl, rfl, rfl, [], by simp, by simp⟩
  rw [Bool.not_eq_true] at h1
  by_cases h2 : obj.inerr = true
  · rw [pfx_mrecvv_inerr obj t cap d h1 h2]
    exact ⟨rfl, rfl, rfl, [], by simp, by simp⟩
  rw [Bool.not_eq_true] at h2
  by_cases h3 : 8 ≤ t.inbuf.length
  · by_cases h4 : dsock_getll (t.inbuf.take 8) = 2 ^ 64 - 1
    · rw [pfx_mrecvv_sentinel obj t cap d h1 h2 h3 h4]
      refine ⟨rfl, rfl, rfl, [TEvent.recvd (t.inbuf.take 8) d], rfl, ?_⟩
      intro e he
      rw [List.mem_singleton] at he
      subst he
      exact Or.inl ⟨_, rfl⟩
    by_cases h5 : cap < dsock_getll (t.inbuf.take 8)
    · rw [pfx_mrecvv_toobig obj t cap d h1 h2 h3 h4 h5]
      refine ⟨rfl, rfl, rfl, [TEvent.recvd (t.inbuf.take 8) d], rfl, ?_⟩
      intro e he
      rw [List.mem_singleton] at he
      subst he
      exact Or.inl ⟨_, rfl⟩
    rw [Nat.not_lt] at h5
    by_cases h6 : dsock_getll (t.inbuf.take 8) ≤ t.inbuf.length - 8
    · rw [pfx_mrecvv_ok obj t cap d h1 h2 h3 h4 h5 h6]
      refine ⟨rfl, rfl, rfl,
        [TEvent.recvd (t.inbuf.take 8) d,
         TEvent.recvd ((t.inbuf.drop 8).take (dsock_getll (t.inbuf.take 8))) d], rfl, ?_⟩
      intro e he
      rcases List.mem_cons.mp he with he | he
      · subst he; exact Or.inl ⟨_, rfl⟩
      · rw [List.mem_singleton] at he
        subst he
        exact Or.inl ⟨_, rfl⟩
    · rw [Nat.not_le] at h6
      rw [pfx_mrecvv_bodyfail obj t cap d h1 h2 h3 h4 h5 h6]
      refine ⟨rfl, rfl, rfl,
        [TEvent.recvd (t.inbuf.take 8) d, TEvent.recvFailed d], rfl, ?_⟩
      intro e he
      rcases List.mem_cons.mp he with he | he
      · subst he; exact Or.inl ⟨_, rfl⟩
      · rw [List.mem_singleton] at he
        subst he
        exact Or.inr rfl
  · rw [Nat.not_le] at h3
    rw [pfx_mrecvv_hdrfail obj t cap d h1 h2 h3]
    refine ⟨rfl, rfl, rfl, [TEvent.recvFailed d], rfl, ?_⟩
    intro e he
    rw [List.mem_singleton] at he
    subst he
    exact Or.inr rfl

/-- `pfx_hdone` touches the transport only through `bsend`: the input
queue, the failure injection and the closed flag all survive. -/
theorem pfx_hdone_transport (obj : PfxSock) (t : Transport) :
    (pfx_hdone obj t).2.1.inbuf = t.inbuf ∧
    (pfx_hdone obj t).2.1.sendFail = t.sendFail ∧
    (pfx_hdone obj t).2.1.closed = t.closed := by
  by_cases h1 : obj.outdone = true
  · rw [pfx_hdone_outdone obj t h1]; exact ⟨rfl, rfl, rfl⟩
  rw [Bool.not_eq_true] at h1
  by_cases h2 : obj.outerr = true
  · rw [pfx_hdone_outerr obj t h1 h2]; exact ⟨rfl, rfl, rfl⟩
  rw [Bool.not_eq_true] at h2
  by_cases h3 : t.sendFail = true
  · rw [pfx_hdone_fail obj t h1 h2 h3]; exact ⟨rfl, rfl, rfl⟩
  · rw [Bool.not_eq_true] at h3
    rw [pfx_hdone_ok obj t h1 h2 h3]; exact ⟨rfl, rfl, rfl⟩

/-- Strong-induction workhorse: the drain loop only consumes input bytes
and logs receive events stamped with its deadline. -/
theorem drain_transport_aux (n : Nat) :
    ∀ (d : Int) (obj : PfxSock) (t : Transport), t.inbuf.length ≤ n →
      (drain d obj t).2.1.out = t.out ∧
      (drain d obj t).2.1.sendFail = t.sendFail ∧
      (drain d obj t).2.1.closed = t.closed ∧
      ∃ es, (drain d obj t).2.1.events = t.events ++ es ∧
        ∀ e ∈ es, e.recvAt d := by
  induction n using Nat.strong_induction_on with
  | _ n ih =>
    intro d obj t hle
    rcases hmr : pfx_mrecvv obj t 0 d with ⟨obj1, t1, r⟩
    have htr := pfx_mrecvv_transport obj t 0 d
    rw [hmr] at htr
    cases r with
    | error e =>
      rw [drain_step_err d obj obj1 t t1 e hmr]
      exact htr
    | ok bs =>
      rw [drain_step_ok d obj obj1 t t1 bs hmr]
      have hlt : t1.inbuf.length < t.inbuf.length := by
        have hs := pfx_mrecvv_ok_shrink obj t 0 d bs (by rw [hmr])
        rwa [hmr] at hs
      obtain ⟨ho1, hsf1, hc1, es1, hev1, hrecv1⟩ := htr
      obtain ⟨ho, hsf, hc, es2, hev2, hrecv2⟩ :=
        ih t1.inbuf.length (lt_of_lt_of_le hlt hle) d obj1 t1 le_rfl
      refine ⟨by rw [ho]; exact ho1, by rw [hsf]; exact hsf1, by rw [hc]; exact hc1,
        es1 ++ es2, ?_, ?_⟩
      · rw [hev2]
        rw [show t1.events = t.events ++ es1 from hev1, List.append_assoc]
      · intro e he
        rcases List.mem_append.mp he with h | h
        · exact hrecv1 e h
        · exact hrecv2 e h

/-- The drain loop only consumes input bytes and logs receive events
stamped with its deadline; output, failure injection and closed flag
survive. -/
theorem drain_transport (d : Int) (obj : PfxSock) (t : Transport) :
    (drain d obj t).2.1.out = t.out ∧
    (drain d obj t).2.1.sendFail = t.sendFail ∧
    (drain d obj t).2.1.closed = t.closed ∧
    ∃ es, (drain d obj t).2.1.events = t.events ++ es ∧
      ∀ e ∈ es, e.recvAt d :=
  drain_transport_aux t.inbuf.length d obj t le_rfl

/-- Draining an input queue of `k` zero-length message frames followed
by the peer's termination marker succeeds: the zero-length messages are
discarded, `indone` is set, and exactly the frames are consumed. -/
theorem drain_zero_frames (k : Nat) :
    ∀ (d : Int) (obj : PfxSock) (t : Transport) (rest : List Nat),
      obj.indone = false → obj.inerr = false →
      t.inbuf = (List.replicate k (dsock_putll 0)).flatten ++ (sentinelBytes ++ rest) →
      ∃ es, drain d obj t =
        ({ obj with indone := true },
         { t with inbuf := rest, events := t.events ++ es }, none) := by
  induction k with
  | zero =>
    intro d obj t rest h1 h2 hin
    rw [List.replicate_zero, List.flatten_nil, List.nil_append] at hin
    have hs8 : sentinelBytes.length = 8 := by simp [sentinelBytes]
    have h8 : (8 : Nat) ≤ t.inbuf.length := by
      rw [hin, List.length_append, hs8]; omega
    have htake : t.inbuf.take 8 = sentinelBytes := by
      rw [hin]; exact List.take_left' hs8
    have hdrop : t.inbuf.drop 8 = rest := by
      rw [hin]; exact List.drop_left' hs8
    have hmr := pfx_mrecvv_sentinel obj t 0 d h1 h2 h8
      (by rw [htake]; exact getll_sentinel)
    refine ⟨[TEvent.recvd (t.inbuf.take 8) d], ?_⟩
    rw [drain_step_err d obj _ t _ Err.EPIPE hmr, hdrop]
    simp
  | succ k ih =>
    intro d obj t rest h1 h2 hin
    have hbuf : t.inbuf = dsock_putll 0 ++
        ((List.replicate k (dsock_putll 0)).flatten ++ (sentinelBytes ++ rest)) := by
      rw [hin, List.replicate_succ, List.flatten_cons, List.append_assoc]
    have hlen0 : (dsock_putll 0).length = 8 := putll_length 0
    have htake : t.inbuf.take 8 = dsock_putll 0 := by
      rw [hbuf]; exact List.take_left' hlen0
    have hdrop : t.inbuf.drop 8 =
        (List.replicate k (dsock_putll 0)).flatten ++ (sentinelBytes ++ rest) := by
      rw [hbuf]; exact List.drop_left' hlen0
    have hgl : dsock_getll (t.inbuf.take 8) = 0 := by
      rw [htake, getll_putll]
      omega
    have h8 : (8 : Nat) ≤ t.inbuf.length := by
      rw [hbuf, List.length_append, hlen0]; omega
    have hmr := pfx_mrecvv_ok obj t 0 d h1 h2 h8
      (by rw [hgl]; omega) (by rw [hgl]) (by rw [hgl]; omega)
    rw [hgl, Nat.add_zero, List.take_zero] at hmr
    rw [drain_step_ok d obj _ t _ _ hmr]
    obtain ⟨es2, hrec⟩ := ih d obj
      { t with inbuf := t.inbuf.drop 8,
               events := t.events ++ [TEvent.recvd (t.inbuf.take 8) d, TEvent.recvd [] d] }
      rest h1 h2 hdrop
    rw [hrec]
    refine ⟨[TEvent.recvd (t.inbuf.take 8) d, TEvent.recvd [] d] ++ es2, ?_⟩
    simp

/-- C2: for every message M with 0 ≤ len(M) ≤ receiver capacity (and a
representable length), on an engine pair sharing the transport byte
queue, send(M) writes the framed message and a receive with enough
capacity returns exactly M's bytes in order with length len(M). -/
theorem pfx_C2_send_recv_roundtrip (msg : List Nat) (cap : Nat) (dS dR : Int)
    (objS objR : PfxSock) (tS tR : Transport) (rest : List Nat)
    (hS1 : objS.outdone = false) (hS2 : objS.outerr = false) (hS3 : tS.sendFail = false)
    (hR1 : objR.indone = false) (hR2 : objR.inerr = false)
    (hcap : msg.length ≤ cap) (hmax : msg.length ≤ 2 ^ 64 - 2)
    (hlink : tR.inbuf = dsock_putll msg.length ++ (msg ++ rest)) :
    pfx_msendv objS tS msg dS =
      (objS,
       { tS with out := tS.out ++ (dsock_putll msg.length ++ msg),
                 events := tS.events ++ [TEvent.sent (dsock_putll msg.length ++ msg) dS] },
       none) ∧
    pfx_mrecvv objR tR cap dR =
      (objR,
       { tR with inbuf := rest,
                 events := tR.events ++ [TEvent.recvd (dsock_putll msg.length) dR,
                                         TEvent.recvd msg dR] },
       Except.ok msg) := by
  have hlen8 : (dsock_putll msg.length).length = 8 := putll_length _
  have htake : tR.inbuf.take 8 = dsock_putll msg.length := by
    rw [hlink]; exact List.take_left' hlen8
  have hdrop8 : tR.inbuf.drop 8 = msg ++ rest := by
    rw [hlink]; exact List.drop_left' hlen8
  have hsz : dsock_getll (tR.inbuf.take 8) = msg.length := by
    rw [htake, getll_putll, Nat.mod_eq_of_lt (by omega)]
  have hlenbuf : tR.inbuf.length = 8 + (msg.length + rest.length) := by
    rw [hlink, List.length_append, List.length_append, hlen8]
  refine ⟨pfx_msendv_ok objS tS msg dS hS1 hS2 hS3, ?_⟩
  rw [pfx_mrecvv_ok objR tR cap dR hR1 hR2 (by omega) (by rw [hsz]; omega)
      (by rw [hsz]; exact hcap) (by rw [hsz]; omega)]
  rw [hsz, htake, hdrop8]
  rw [show tR.inbuf.drop (8 + msg.length) = rest from by
    rw [hlink, ← List.append_assoc]
    exact List.drop_left' (by rw [List.length_append, hlen8])]
  rw [List.take_left' (rfl : msg.length = msg.length)]

/-- C2 witness: sending `[1, 2, 3]` and receiving with capacity 3
returns exactly `[1, 2, 3]`. -/
theorem pfx_C2_witness :
    (pfx_mrecvv pfx_start
      { inbuf := [0, 0, 0, 0, 0, 0, 0, 3, 1, 2, 3], out := [], sendFail := false,
        closed := false, events := [] } 3 7).2.2 = Except.ok [1, 2, 3] := by
  have h := pfx_C2_send_recv_roundtrip [1, 2, 3] 3 5 7 pfx_start pfx_start
    { inbuf := [], out := [], sendFail := false, closed := false, events := [] }
    { inbuf := [0, 0, 0, 0, 0, 0, 0, 3, 1, 2, 3], out := [], sendFail := false,
      closed := false, events := [] } []
    rfl rfl rfl rfl rfl (by norm_num) (by norm_num) (by decide)
  rw [h.2]

/-- C3: a frame whose declared length is not the sentinel and exceeds
the destination capacity fails with `EMSGSIZE`, sets `inerr`, and every
subsequent receive on that instance fails with `ECONNRESET` leaving the
state and transport untouched. -/
theorem pfx_C3_toobig_breaks (obj : PfxSock) (t : Transport) (cap : Nat) (d : Int)
    (h1 : obj.indone = false) (h2 : obj.inerr = false)
    (h3 : 8 ≤ t.inbuf.length)
    (h4 : dsock_getll (t.inbuf.take 8) ≠ 2 ^ 64 - 1)
    (h5 : cap < dsock_getll (t.inbuf.take 8)) :
    (pfx_mrecvv obj t cap d).2.2 = Except.error Err.EMSGSIZE ∧
    (pfx_mrecvv obj t cap d).1.inerr = true ∧
    ∀ (t2 : Transport) (cap2 : Nat) (d2 : Int),
      pfx_mrecvv (pfx_mrecvv obj t cap d).1 t2 cap2 d2 =
        ((pfx_mrecvv obj t cap d).1, t2, Except.error Err.ECONNRESET) := by
  rw [pfx_mrecvv_toobig obj t cap d h1 h2 h3 h4 h5]
  exact ⟨rfl, rfl, fun t2 cap2 d2 => pfx_mrecvv_inerr _ t2 cap2 d2 h1 rfl⟩

/-- C3 witness: a declared length of 5 against capacity 0 fails with
`EMSGSIZE` and the instance is then permanently `ECONNRESET`. -/
theorem pfx_C3_witness :
    (pfx_mrecvv pfx_start
      { inbuf := [0, 0, 0, 0, 0, 0, 0, 5], out := [], sendFail := false,
        closed := false, events := [] } 0 3).2.2 = Except.error Err.EMSGSIZE ∧
    pfx_mrecvv (pfx_mrecvv pfx_start
      { inbuf := [0, 0, 0, 0, 0, 0, 0, 5], out := [], sendFail := false,
        closed := false, events := [] } 0 3).1
      { inbuf := [1, 2], out := [], sendFail := false, closed := false, events := [] } 7 9 =
      ((pfx_mrecvv pfx_start
        { inbuf := [0, 0, 0, 0, 0, 0, 0, 5], out := [], sendFail := false,
          closed := false, events := [] } 0 3).1,
       { inbuf := [1, 2], out := [], sendFail := false, closed := false, events := [] },
       Except.error Err.ECONNRESET) := by
  have h := pfx_C3_toobig_breaks pfx_start
    { inbuf := [0, 0, 0, 0, 0, 0, 0, 5], out := [], sendFail := false,
      closed := false, events := [] } 0 3 rfl rfl (by decide) (by decide) (by decide)
  exact ⟨h.1, h.2.2 _ 7 9⟩

/-- C4: after a successful `done`, further `send` and `done` fail with
`EPIPE` without touching the transport, while receive behaves exactly as
it did before `done` (it ignores the send-side flags). -/
theorem pfx_C4_done_blocks_send (obj : PfxSock) (t : Transport)
    (h1 : obj.outdone = false) (h2 : obj.outerr = false) (h3 : t.sendFail = false) :
    pfx_hdone obj t =
      ({ obj with outdone := true },
       { t with out := t.out ++ sentinelBytes,
                events := t.events ++ [TEvent.sent sentinelBytes (-1)] }, none) ∧
    (∀ (t2 : Transport) (msg : List Nat) (d : Int),
      pfx_msendv { obj with outdone := true } t2 msg d =
        ({ obj with outdone := true }, t2, some Err.EPIPE)) ∧
    (∀ t2 : Transport,
      pfx_hdone { obj with outdone := true } t2 =
        ({ obj with outdone := true }, t2, some Err.EPIPE)) ∧
    (∀ (t2 : Transport) (cap : Nat) (d : Int),
      (pfx_mrecvv { obj with outdone := true } t2 cap d).2 =
        (pfx_mrecvv obj t2 cap d).2 ∧
      (pfx_mrecvv { obj with outdone := true } t2 cap d).1.indone =
        (pfx_mrecvv obj t2 cap d).1.indone ∧
      (pfx_mrecvv { obj with outdone := true } t2 cap d).1.inerr =
        (pfx_mrecvv obj t2 cap d).1.inerr) := by
  refine ⟨pfx_hdone_ok obj t h1 h2 h3,
    fun t2 msg d => pfx_msendv_outdone _ t2 msg d rfl,
    fun t2 => pfx_hdone_outdone _ t2 rfl,
    fun t2 cap d => pfx_mrecvv_ignores_outflags obj true obj.outerr t2 cap d⟩

/-- C4 witness: done on a fresh engine writes the marker once; the
second done and a send then fail with `EPIPE` and a receive still
succeeds. -/
theorem pfx_C4_witness :
    pfx_hdone pfx_start
      { inbuf := [], out := [], sendFail := false, closed := false, events := [] } =
      (⟨false, true, false, false⟩,
       { inbuf := [], out := sentinelBytes, sendFail := false, closed := false,
         events := [TEvent.sent sentinelBytes (-1)] }, none) ∧
    pfx_msendv ⟨false, true, false, false⟩
      { inbuf := [], out := [], sendFail := false, closed := false, events := [] } [9] 4 =
      (⟨false, true, false, false⟩,
       { inbuf := [], out := [], sendFail := false, closed := false, events := [] },
       some Err.EPIPE) ∧
    pfx_hdone ⟨false, true, false, false⟩
      { inbuf := [], out := [], sendFail := false, closed := false, events := [] } =
      (⟨false, true, false, false⟩,
       { inbuf := [], out := [], sendFail := false, closed := false, events := [] },
       some Err.EPIPE) ∧
    (pfx_mrecvv ⟨false, true, false, false⟩
      { inbuf := [0, 0, 0, 0, 0, 0, 0, 1, 42], out := [], sendFail := false,
        closed := false, events := [] } 1 6).2 =
    (pfx_mrecvv pfx_start
      { inbuf := [0, 0, 0, 0, 0, 0, 0, 1, 42], out := [], sendFail := false,
        closed := false, events := [] } 1 6).2 := by
  have h := pfx_C4_done_blocks_send pfx_start
    { inbuf := [], out := [], sendFail := false, closed := false, events := [] } rfl rfl rfl
  exact ⟨h.1,
    h.2.1 { inbuf := [], out := [], sendFail := false, closed := false, events := [] } [9] 4,
    h.2.2.1 { inbuf := [], out := [], sendFail := false, closed := false, events := [] },
    (h.2.2.2 { inbuf := [0, 0, 0, 0, 0, 0, 0, 1, 42], out := [], sendFail := false,
               closed := false, events := [] } 1 6).1⟩

/-- C5: reading the 8-byte all-ones prefix sets `indone` and fails with
`EPIPE`; with `indone` set, every receive on any transport state returns
`EPIPE` immediately, leaving the state and the transport untouched (so
no further bytes are ever consumed). -/
theorem pfx_C5_peer_done_permanent (obj : PfxSock) (t : Transport) (cap : Nat) (d : Int)
    (h1 : obj.indone = false) (h2 : obj.inerr = false)
    (h3 : 8 ≤ t.inbuf.length)
    (h4 : dsock_getll (t.inbuf.take 8) = 2 ^ 64 - 1) :
    pfx_mrecvv obj t cap d =
      ({ obj with indone := true },
       { t with inbuf := t.inbuf.drop 8,
                events := t.events ++ [TEvent.recvd (t.inbuf.take 8) d] },
       Except.error Err.EPIPE) ∧
    ∀ (obj2 : PfxSock) (t2 : Transport) (cap2 : Nat) (d2 : Int),
      obj2.indone = true →
      pfx_mrecvv obj2 t2 cap2 d2 = (obj2, t2, Except.error Err.EPIPE) :=
  ⟨pfx_mrecvv_sentinel obj t cap d h1 h2 h3 h4,
   fun obj2 t2 cap2 d2 h => pfx_mrecvv_indone obj2 t2 cap2 d2 h⟩

/-- C5 witness: the all-ones prefix yields `EPIPE` and sets `indone`;
the next receive returns `EPIPE` without consuming the remaining byte. -/
theorem pfx_C5_witness :
    pfx_mrecvv pfx_start
      { inbuf := [255, 255, 255, 255, 255, 255, 255, 255, 42], out := [],
        sendFail := false, closed := false, events := [] } 9 4 =
      (⟨true, false, false, false⟩,
       { inbuf := [42], out := [], sendFail := false, closed := false,
         events := [TEvent.recvd [255, 255, 255, 255, 255, 255, 255, 255] 4] },
       Except.error Err.EPIPE) ∧
    pfx_mrecvv ⟨true, false, false, false⟩
      { inbuf := [42], out := [], sendFail := false, closed := false, events := [] } 9 4 =
      (⟨true, false, false, false⟩,
       { inbuf := [42], out := [], sendFail := false, closed := false, events := [] },
       Except.error Err.EPIPE) := by
  have h := pfx_C5_peer_done_permanent pfx_start
    { inbuf := [255, 255, 255, 255, 255, 255, 255, 255, 42], out := [],
      sendFail := false, closed := false, events := [] } 9 4 rfl rfl (by decide) (by decide)
  exact ⟨h.1,
    h.2 ⟨true, false, false, false⟩
      { inbuf := [42], out := [], sendFail := false, closed := false, events := [] } 9 4 rfl⟩

/-- C6: sticky error flags.  With `outerr` set (and `outdone` clear, the
only reachable combination), send and done fail `ECONNRESET` without
touching anything; with `inerr` set likewise for receive; no operation
ever clears a set error flag; a failed marker write sets `outerr` and
leaves `outdone` clear, and `outdone` is set only by a successful marker
write. -/
theorem pfx_C6_sticky_errors (obj : PfxSock) (t : Transport) :
    (obj.outerr = true → obj.outdone = false →
      (∀ (msg : List Nat) (d : Int),
        pfx_msendv obj t msg d = (obj, t, some Err.ECONNRESET)) ∧
      pfx_hdone obj t = (obj, t, some Err.ECONNRESET)) ∧
    (obj.inerr = true → obj.indone = false →
      ∀ (cap : Nat) (d : Int),
        pfx_mrecvv obj t cap d = (obj, t, Except.error Err.ECONNRESET)) ∧
    (obj.outerr = true →
      ∀ (msg : List Nat) (cap : Nat) (d : Int),
        (pfx_msendv obj t msg d).1.outerr = true ∧
        (pfx_hdone obj t).1.outerr = true ∧
        (pfx_mrecvv obj t cap d).1.outerr = true) ∧
    (obj.inerr = true →
      ∀ (msg : List Nat) (cap : Nat) (d : Int),
        (pfx_msendv obj t msg d).1.inerr = true ∧
        (pfx_hdone obj t).1.inerr = true ∧
        (pfx_mrecvv obj t cap d).1.inerr = true) ∧
    (obj.outdone = false → obj.outerr = false → t.sendFail = true →
      pfx_hdone obj t =
        ({ obj with outerr := true },
         { t with events := t.events ++ [TEvent.sendFailed (-1)] },
         some Err.ETRANSPORT) ∧
      ({ obj with outerr := true } : PfxSock).outdone = false) ∧
    (obj.outdone = false → obj.outerr = false → t.sendFail = false →
      (pfx_hdone obj t).1.outdone = true) := by
  refine ⟨?_, ?_, ?_, ?_, ?_, ?_⟩
  · intro ho hd
    exact ⟨fun msg d => pfx_msendv_outerr obj t msg d hd ho, pfx_hdone_outerr obj t hd ho⟩
  · intro hi hd cap d
    exact pfx_mrecvv_inerr obj t cap d hd hi
  · intro ho msg cap d
    exact ⟨(pfx_outerr_monotone obj t msg d ho).1, (pfx_outerr_monotone obj t msg d ho).2,
      (pfx_mrecvv_outflags obj t cap d).2.trans ho⟩
  · intro hi msg cap d
    exact ⟨(pfx_msendv_inflags obj t msg d).2.trans hi, (pfx_hdone_inflags obj t).2.trans hi,
      pfx_inerr_monotone obj t cap d hi⟩
  · intro h1 h2 h3
    exact ⟨pfx_hdone_fail obj t h1 h2 h3, h1⟩
  · intro h1 h2 h3
    rw [pfx_hdone_ok obj t h1 h2 h3]

/-- C6 witness: an instance with both error flags set refuses every
operation with `ECONNRESET` and keeps its flags; a fresh instance on a
failing transport gets `outerr` (not `outdone`) from `done`. -/
theorem pfx_C6_witness :
    pfx_msendv ⟨false, false, true, true⟩
      { inbuf := [], out := [], sendFail := false, closed := false, events := [] } [5] 3 =
      (⟨false, false, true, true⟩,
       { inbuf := [], out := [], sendFail := false, closed := false, events := [] },
       some Err.ECONNRESET) ∧
    pfx_hdone ⟨false, false, true, true⟩
      { inbuf := [], out := [], sendFail := false, closed := false, events := [] } =
      (⟨false, false, true, true⟩,
       { inbuf := [], out := [], sendFail := false, closed := false, events := [] },
       some Err.ECONNRESET) ∧
    pfx_mrecvv ⟨false, false, true, true⟩
      { inbuf := [], out := [], sendFail := false, closed := false, events := [] } 4 9 =
      (⟨false, false, true, true⟩,
       { inbuf := [], out := [], sendFail := false, closed := false, events := [] },
       Except.error Err.ECONNRESET) ∧
    (pfx_mrecvv ⟨false, false, true, true⟩
      { inbuf := [], out := [], sendFail := false, closed := false, events := [] } 4 9).1.outerr
      = true ∧
    (pfx_msendv ⟨false, false, true, true⟩
      { inbuf := [], out := [], sendFail := false, closed := false, events := [] } [5] 3).1.inerr
      = true ∧
    pfx_hdone pfx_start
      { inbuf := [], out := [], sendFail := true, closed := false, events := [] } =
      (⟨false, false, false, true⟩,
       { inbuf := [], out := [], sendFail := true, closed := false,
         events := [TEvent.sendFailed (-1)] },
       some Err.ETRANSPORT) := by
  have h := pfx_C6_sticky_errors ⟨false, false, true, true⟩
    { inbuf := [], out := [], sendFail := false, closed := false, events := [] }
  have h2 := pfx_C6_sticky_errors pfx_start
    { inbuf := [], out := [], sendFail := true, closed := false, events := [] }
  exact ⟨(h.1 rfl rfl).1 [5] 3, (h.1 rfl rfl).2, h.2.1 rfl rfl 4 9,
    (h.2.2.1 rfl [5] 4 9).2.2, (h.2.2.2.1 rfl [5] 4 9).1,
    (h2.2.2.2.2.1 rfl rfl rfl).1⟩

/-- C7: a successful send is one transport write, under the caller's
deadline, of the 8-byte big-endian encoding of the payload length
followed by the payload; a successful done is one write of the 8-byte
all-ones termination frame with no payload, under the no-deadline value. -/
theorem pfx_C7_wire_format (obj : PfxSock) (t : Transport) (msg : List Nat) (d : Int)
    (h1 : obj.outdone = false) (h2 : obj.outerr = false) (h3 : t.sendFail = false) :
    pfx_msendv obj t msg d =
      (obj,
       { t with out := t.out ++ (dsock_putll msg.length ++ msg),
                events := t.events ++ [TEvent.sent (dsock_putll msg.length ++ msg) d] },
       none) ∧
    (dsock_putll msg.length).length = 8 ∧
    dsock_getll (dsock_putll msg.length) = msg.length % 2 ^ 64 ∧
    pfx_hdone obj t =
      ({ obj with outdone := true },
       { t with out := t.out ++ sentinelBytes,
                events := t.events ++ [TEvent.sent sentinelBytes (-1)] },
       none) ∧
    sentinelBytes = dsock_putll (2 ^ 64 - 1) ∧
    sentinelBytes.length = 8 :=
  ⟨pfx_msendv_ok obj t msg d h1 h2 h3, putll_length _, getll_putll _,
   pfx_hdone_ok obj t h1 h2 h3, putll_sentinel.symm, by simp [sentinelBytes]⟩

/-- C7 witness: sending `[10, 11]` writes the 8-byte header `…0002`
followed by the payload, and done writes the all-ones frame. -/
theorem pfx_C7_witness :
    pfx_msendv pfx_start
      { inbuf := [], out := [], sendFail := false, closed := false, events := [] } [10, 11] 6 =
      (pfx_start,
       { inbuf := [], out := [0, 0, 0, 0, 0, 0, 0, 2, 10, 11], sendFail := false,
         closed := false, events := [TEvent.sent [0, 0, 0, 0, 0, 0, 0, 2, 10, 11] 6] },
       none) ∧
    pfx_hdone pfx_start
      { inbuf := [], out := [], sendFail := false, closed := false, events := [] } =
      (⟨false, true, false, false⟩,
       { inbuf := [], out := [255, 255, 255, 255, 255, 255, 255, 255], sendFail := false,
         closed := false,
         events := [TEvent.sent [255, 255, 255, 255, 255, 255, 255, 255] (-1)] },
       none) := by
  have h := pfx_C7_wire_format pfx_start
    { inbuf := [], out := [], sendFail := false, closed := false, events := [] }
    [10, 11] 6 rfl rfl rfl
  exact ⟨h.1, h.2.2.2.1⟩

/-- C8: send performs no sentinel check on the total length: a message
of length 2^64 − 1 is sent successfully with a header identical to the
termination frame, so a peer's receive of that byte stream immediately
reports peer-done (`EPIPE`, `indone` set) instead of a message. -/
theorem pfx_C8_sentinel_collision (obj : PfxSock) (t : Transport) (msg : List Nat) (d : Int)
    (h1 : obj.outdone = false) (h2 : obj.outerr = false) (h3 : t.sendFail = false)
    (hlen : msg.length = 2 ^ 64 - 1) :
    dsock_putll msg.length = sentinelBytes ∧
    pfx_msendv obj t msg d =
      (obj,
       { t with out := t.out ++ (sentinelBytes ++ msg),
                events := t.events ++ [TEvent.sent (sentinelBytes ++ msg) d] },
       none) ∧
    ∀ (objP : PfxSock) (tP : Transport) (capP : Nat) (dP : Int) (rest : List Nat),
      objP.indone = false → objP.inerr = false →
      tP.inbuf = sentinelBytes ++ (msg ++ rest) →
      pfx_mrecvv objP tP capP dP =
        ({ objP with indone := true },
         { tP with inbuf := msg ++ rest,
                   events := tP.events ++ [TEvent.recvd sentinelBytes dP] },
         Except.error Err.EPIPE) := by
  have hps : dsock_putll msg.length = sentinelBytes := by
    rw [hlen]; exact putll_sentinel
  refine ⟨hps, ?_, ?_⟩
  · have h := pfx_msendv_ok obj t msg d h1 h2 h3
    rw [hps] at h
    exact h
  · intro objP tP capP dP rest hp1 hp2 hpin
    have hs8 : sentinelBytes.length = 8 := by simp [sentinelBytes]
    have htake : tP.inbuf.take 8 = sentinelBytes := by
      rw [hpin]; exact List.take_left' hs8
    have hdrop : tP.inbuf.drop 8 = msg ++ rest := by
      rw [hpin]; exact List.drop_left' hs8
    have h8 : (8 : Nat) ≤ tP.inbuf.length := by
      rw [hpin, List.length_append, hs8]; omega
    have h := pfx_mrecvv_sentinel objP tP capP dP hp1 hp2 h8
      (by rw [htake]; exact getll_sentinel)
    rw [htake, hdrop] at h
    exact h

/-- C8 witness: a message of exactly 2^64 − 1 zero bytes has the
all-ones header, and a peer receiving that stream reports peer-done. -/
theorem pfx_C8_witness :
    dsock_putll (List.replicate (2 ^ 64 - 1) 0).length = sentinelBytes ∧
    pfx_mrecvv pfx_start
      { inbuf := sentinelBytes ++ (List.replicate (2 ^ 64 - 1) 0 ++ [7]), out := [],
        sendFail := false, closed := false, events := [] } 0 2 =
      ({ pfx_start with indone := true },
       { inbuf := List.replicate (2 ^ 64 - 1) 0 ++ [7], out := [], sendFail := false,
         closed := false, events := ([] : List TEvent) ++ [TEvent.recvd sentinelBytes 2] },
       Except.error Err.EPIPE) :=
  have h := pfx_C8_sentinel_collision pfx_start
    { inbuf := [], out := [], sendFail := false, closed := false, events := [] }
    (List.replicate (2 ^ 64 - 1) 0) 4 rfl rfl rfl (List.length_replicate _ _)
  ⟨h.1, h.2.2 pfx_start
    { inbuf := sentinelBytes ++ (List.replicate (2 ^ 64 - 1) 0 ++ [7]), out := [],
      sendFail := false, closed := false, events := [] } 0 2 [7] rfl rfl rfl⟩

/-- C10: every failing `pfx_stop` hands back a closed transport (the
engine closed it via `pfx_hclose`), while a successful `pfx_stop` leaves
the transport's closed flag as it was. -/
theorem pfx_C10_stop_closes_on_error (obj : PfxSock) (t : Transport) (d : Int) :
    (∀ (e : Err) (tc : Transport),
      pfx_stop obj t d = Except.error (e, tc) → tc.closed = true) ∧
    (∀ u : Transport, pfx_stop obj t d = Except.ok u → u.closed = t.closed) := by
  by_cases hcond : (obj.inerr || obj.outerr) = true
  · constructor
    · intro e tc h
      simp only [pfx_stop, hcond, if_true] at h
      simp only [Except.error.injEq, Prod.mk.injEq] at h
      rw [← h.2]
      rfl
    · intro u h
      simp only [pfx_stop, hcond, if_true] at h
      exact absurd h (by simp)
  · rw [Bool.not_eq_true] at hcond
    rcases hh : (if obj.outdone then (obj, t, (none : Option Err)) else pfx_hdone obj t)
      with ⟨o1, t1, r1⟩
    have ht1c : t1.closed = t.closed := by
      by_cases ho : obj.outdone = true
      · rw [if_pos ho] at hh
        rw [show t1 = t from congrArg (fun p => p.2.1) hh.symm]
      · simp only [ho, if_false, Bool.false_eq_true] at hh
        have hp := (pfx_hdone_transport obj t).2.2
        rw [hh] at hp
        exact hp
    cases r1 with
    | some e1 =>
      constructor
      · intro e tc h
        simp only [pfx_stop, hcond, Bool.false_eq_true, if_false, hh] at h
        simp only [Except.error.injEq, Prod.mk.injEq] at h
        rw [← h.2]
        rfl
      · intro u h
        simp only [pfx_stop, hcond, Bool.false_eq_true, if_false, hh] at h
        exact absurd h (by simp)
    | none =>
      rcases hdr : drain d o1 t1 with ⟨o2, t2, r2⟩
      have ht2c : t2.closed = t1.closed := by
        have hp := (drain_transport d o1 t1).2.2.1
        rw [hdr] at hp
        exact hp
      cases r2 with
      | none =>
        constructor
        · intro e tc h
          simp only [pfx_stop, hcond, Bool.false_eq_true, if_false, hh, hdr] at h
          exact absurd h (by simp)
        · intro u h
          simp only [pfx_stop, hcond, Bool.false_eq_true, if_false, hh, hdr,
            Except.ok.injEq] at h
          rw [← h, ht2c, ht1c]
      | some e2 =>
        constructor
        · intro e tc h
          simp only [pfx_stop, hcond, Bool.false_eq_true, if_false, hh, hdr] at h
          simp only [Except.error.injEq, Prod.mk.injEq] at h
          rw [← h.2]
          rfl
        · intro u h
          simp only [pfx_stop, hcond, Bool.false_eq_true, if_false, hh, hdr] at h
          exact absurd h (by simp)

/-- C10 witness: a stop that immediately finds the peer's marker
returns the transport open; a stop on a broken path returns it closed. -/
theorem pfx_C10_witness :
    pfx_stop pfx_start
      { inbuf := [255, 255, 255, 255, 255, 255, 255, 255], out := [], sendFail := false,
        closed := false, events := [] } 9 =
      Except.ok
        { inbuf := [], out := [255, 255, 255, 255, 255, 255, 255, 255], sendFail := false,
          closed := false,
          events := [TEvent.sent [255, 255, 255, 255, 255, 255, 255, 255] (-1),
                     TEvent.recvd [255, 255, 255, 255, 255, 255, 255, 255] 9] } ∧
    ({ inbuf := [], out := [255, 255, 255, 255, 255, 255, 255, 255], sendFail := false,
       closed := false,
       events := [TEvent.sent [255, 255, 255, 255, 255, 255, 255, 255] (-1),
                  TEvent.recvd [255, 255, 255, 255, 255, 255, 255, 255] 9] } : Transport).closed
      = false ∧
    pfx_stop ⟨false, false, true, false⟩
      { inbuf := [], out := [], sendFail := false, closed := false, events := [] } 3 =
      Except.error (Err.ECONNRESET,
        { inbuf := [], out := [], sendFail := false, closed := true, events := [] }) ∧
    ({ inbuf := [], out := [], sendFail := false, closed := true, events := [] }
      : Transport).closed = true := by
  have hmr : pfx_mrecvv ⟨false, true, false, false⟩
      { inbuf := [255, 255, 255, 255, 255, 255, 255, 255],
        out := [255, 255, 255, 255, 255, 255, 255, 255], sendFail := false, closed := false,
        events := [TEvent.sent [255, 255, 255, 255, 255, 255, 255, 255] (-1)] } 0 9 =
      (⟨true, true, false, false⟩,
       { inbuf := [], out := [255, 255, 255, 255, 255, 255, 255, 255], sendFail := false,
         closed := false,
         events := [TEvent.sent [255, 255, 255, 255, 255, 255, 255, 255] (-1),
                    TEvent.recvd [255, 255, 255, 255, 255, 255, 255, 255] 9] },
       Except.error Err.EPIPE) := rfl
  have hd := drain_step_err 9 _ _ _ _ _ hmr
  have hstop : pfx_stop pfx_start
      { inbuf := [255, 255, 255, 255, 255, 255, 255, 255], out := [], sendFail := false,
        closed := false, events := [] } 9 =
      Except.ok
        { inbuf := [], out := [255, 255, 255, 255, 255, 255, 255, 255], sendFail := false,
          closed := false,
          events := [TEvent.sent [255, 255, 255, 255, 255, 255, 255, 255] (-1),
                     TEvent.recvd [255, 255, 255, 255, 255, 255, 255, 255] 9] } := by
    have h1 : pfx_stop pfx_start
        { inbuf := [255, 255, 255, 255, 255, 255, 255, 255], out := [], sendFail := false,
          closed := false, events := [] } 9 =
        (match drain 9 ⟨false, true, false, false⟩
          { inbuf := [255, 255, 255, 255, 255, 255, 255, 255],
            out := [255, 255, 255, 255, 255, 255, 255, 255], sendFail := false,
            closed := false,
            events := [TEvent.sent [255, 255, 255, 255, 255, 255, 255, 255] (-1)] } with
         | (_, t2, none) => Except.ok t2
         | (_, t2, some e) => Except.error (e, pfx_hclose t2)) := rfl
    rw [h1, hd]
    rfl
  have herr : pfx_stop ⟨false, false, true, false⟩
      { inbuf := [], out := [], sendFail := false, closed := false, events := [] } 3 =
      Except.error (Err.ECONNRESET,
        { inbuf := [], out := [], sendFail := false, closed := true, events := [] }) := rfl
  have h := pfx_C10_stop_closes_on_error pfx_start
    { inbuf := [255, 255, 255, 255, 255, 255, 255, 255], out := [], sendFail := false,
      closed := false, events := [] } 9
  have h2 := pfx_C10_stop_closes_on_error ⟨false, false, true, false⟩
    { inbuf := [], out := [], sendFail := false, closed := false, events := [] } 3
  exact ⟨hstop, h.2 _ hstop, herr, h2.1 Err.ECONNRESET _ herr⟩

/-- C9: the termination-marker write of `done` always carries the
distinguished no-deadline value `-1` — also when `done` runs inside
`stop deadline` — while every transport operation of stop's drain phase
carries stop's own deadline. -/
theorem pfx_C9_done_ignores_deadline (obj : PfxSock) (t : Transport) (d : Int)
    (h1 : obj.indone = false) (h2 : obj.inerr = false)
    (h3 : obj.outdone = false) (h4 : obj.outerr = false) :
    ((pfx_hdone obj t).2.1.events = t.events ++
      [if t.sendFail then TEvent.sendFailed (-1) else TEvent.sent sentinelBytes (-1)]) ∧
    ∃ es, (stopTransport (pfx_stop obj t d)).events = t.events ++
        [if t.sendFail then TEvent.sendFailed (-1) else TEvent.sent sentinelBytes (-1)]
        ++ es ∧
      ∀ e ∈ es, e.recvAt d := by
  have hcond : (obj.inerr || obj.outerr) = false := by rw [h2, h4]; rfl
  by_cases hsf : t.sendFail = true
  · have hdone := pfx_hdone_fail obj t h3 h4 hsf
    constructor
    · rw [hdone, hsf]
      simp
    · refine ⟨[], ?_, by simp⟩
      simp only [pfx_stop, hcond, Bool.false_eq_true, if_false, h3, hdone, hsf,
        stopTransport, pfx_hclose, if_true, List.append_nil]
  · rw [Bool.not_eq_true] at hsf
    have hdone := pfx_hdone_ok obj t h3 h4 hsf
    constructor
    · rw [hdone, hsf]
      simp
    · obtain ⟨-, -, -, es, hev, hrec⟩ := drain_transport d { obj with outdone := true }
        { t with out := t.out ++ sentinelBytes,
                 events := t.events ++ [TEvent.sent sentinelBytes (-1)] }
      refine ⟨es, ?_, hrec⟩
      simp only [pfx_stop, hcond, Bool.false_eq_true, if_false, h3, hdone]
      rcases hdr : drain d { obj with outdone := true }
        { t with out := t.out ++ sentinelBytes,
                 events := t.events ++ [TEvent.sent sentinelBytes (-1)] } with ⟨o2, t2, r2⟩
      rw [hdr] at hev
      rw [hsf]
      cases r2 with
      | none =>
        simp only [stopTransport]
        rw [show (t2 : Transport).events =
          (t.events ++ [TEvent.sent sentinelBytes (-1)]) ++ es from hev]
        simp
      | some e2 =>
        simp only [stopTransport, pfx_hclose]
        rw [show (t2 : Transport).events =
          (t.events ++ [TEvent.sent sentinelBytes (-1)]) ++ es from hev]
        simp

/-- C9 witness: on a fresh engine over a transport holding the peer's
marker, done's write is stamped `-1` and stop's drain events carry the
deadline 9. -/
theorem pfx_C9_witness :
    ((pfx_hdone pfx_start
      { inbuf := [255, 255, 255, 255, 255, 255, 255, 255], out := [], sendFail := false,
        closed := false, events := [] }).2.1.events = [TEvent.sent sentinelBytes (-1)]) ∧
    ∃ es, (stopTransport (pfx_stop pfx_start
        { inbuf := [255, 255, 255, 255, 255, 255, 255, 255], out := [], sendFail := false,
          closed := false, events := [] } 9)).events =
        [TEvent.sent sentinelBytes (-1)] ++ es ∧
      ∀ e ∈ es, e.recvAt 9 :=
  pfx_C9_done_ignores_deadline pfx_start
    { inbuf := [255, 255, 255, 255, 255, 255, 255, 255], out := [], sendFail := false,
      closed := false, events := [] } 9 rfl rfl rfl rfl

/-- C1 counterexample: a clean engine with one in-flight 1-byte message
before the peer's marker.  The claim says stop drains messages of any
length and returns the transport; the code instead fails the
zero-capacity receive with `EMSGSIZE` and closes the transport. -/
theorem pfx_C1_counterexample :
    pfx_stop pfx_start
      { inbuf := [0, 0, 0, 0, 0, 0, 0, 1, 65, 255, 255, 255, 255, 255, 255, 255, 255],
        out := [], sendFail := false, closed := false, events := [] } 7 =
      Except.error (Err.EMSGSIZE,
        { inbuf := [65, 255, 255, 255, 255, 255, 255, 255, 255],
          out := [255, 255, 255, 255, 255, 255, 255, 255], sendFail := false, closed := true,
          events := [TEvent.sent [255, 255, 255, 255, 255, 255, 255, 255] (-1),
                     TEvent.recvd [0, 0, 0, 0, 0, 0, 0, 1] 7] }) := by
  have hmr : pfx_mrecvv ⟨false, true, false, false⟩
      { inbuf := [0, 0, 0, 0, 0, 0, 0, 1, 65, 255, 255, 255, 255, 255, 255, 255, 255],
        out := [255, 255, 255, 255, 255, 255, 255, 255], sendFail := false, closed := false,
        events := [TEvent.sent [255, 255, 255, 255, 255, 255, 255, 255] (-1)] } 0 7 =
      (⟨false, true, true, false⟩,
       { inbuf := [65, 255, 255, 255, 255, 255, 255, 255, 255],
         out := [255, 255, 255, 255, 255, 255, 255, 255], sendFail := false, closed := false,
         events := [TEvent.sent [255, 255, 255, 255, 255, 255, 255, 255] (-1),
                    TEvent.recvd [0, 0, 0, 0, 0, 0, 0, 1] 7] },
       Except.error Err.EMSGSIZE) := rfl
  have hd := drain_step_err 7 _ _ _ _ _ hmr
  have h1 : pfx_stop pfx_start
      { inbuf := [0, 0, 0, 0, 0, 0, 0, 1, 65, 255, 255, 255, 255, 255, 255, 255, 255],
        out := [], sendFail := false, closed := false, events := [] } 7 =
      (match drain 7 ⟨false, true, false, false⟩
        { inbuf := [0, 0, 0, 0, 0, 0, 0, 1, 65, 255, 255, 255, 255, 255, 255, 255, 255],
          out := [255, 255, 255, 255, 255, 255, 255, 255], sendFail := false, closed := false,
          events := [TEvent.sent [255, 255, 255, 255, 255, 255, 255, 255] (-1)] } with
       | (_, t2, none) => Except.ok t2
       | (_, t2, some e) => Except.error (e, pfx_hclose t2)) := rfl
  rw [h1, hd]
  rfl

/-- C1 (amended): on a clean engine, stop performs done if the local
side has not signaled it, then drains with a zero-capacity receive.
Only zero-length in-flight messages can be drained that way; when every
in-flight frame before the peer's marker is zero-length, stop consumes
exactly those frames plus the marker and returns the transport handle
open and unclosed. -/
theorem pfx_C1_stop_drains_empty (k : Nat) (obj : PfxSock) (t : Transport)
    (rest : List Nat) (d : Int)
    (h1 : obj.indone = false) (h2 : obj.inerr = false)
    (h3 : obj.outdone = false) (h4 : obj.outerr = false)
    (hsf : t.sendFail = false)
    (hin : t.inbuf = (List.replicate k (dsock_putll 0)).flatten ++ (sentinelBytes ++ rest)) :
    ∃ u, pfx_stop obj t d = Except.ok u ∧
      u.inbuf = rest ∧
      u.out = t.out ++ sentinelBytes ∧
      u.closed = t.closed ∧
      ∃ es, u.events = t.events ++ [TEvent.sent sentinelBytes (-1)] ++ es ∧
        ∀ e ∈ es, e.recvAt d := by
  have hcond : (obj.inerr || obj.outerr) = false := by rw [h2, h4]; rfl
  have hdone := pfx_hdone_ok obj t h3 h4 hsf
  obtain ⟨es, hdr⟩ := drain_zero_frames k d { obj with outdone := true }
    { t with out := t.out ++ sentinelBytes,
             events := t.events ++ [TEvent.sent sentinelBytes (-1)] } rest h1 h2 hin
  obtain ⟨-, -, -, es2, hev2, hrec2⟩ := drain_transport d { obj with outdone := true }
    { t with out := t.out ++ sentinelBytes,
             events := t.events ++ [TEvent.sent sentinelBytes (-1)] }
  rw [hdr] at hev2
  have hes : es = es2 := by
    have hev2' : (t.events ++ [TEvent.sent sentinelBytes (-1)]) ++ es =
        (t.events ++ [TEvent.sent sentinelBytes (-1)]) ++ es2 := hev2
    exact List.append_cancel_left hev2'
  refine ⟨{ inbuf := rest, out := t.out ++ sentinelBytes, sendFail := t.sendFail,
            closed := t.closed,
            events := t.events ++ [TEvent.sent sentinelBytes (-1)] ++ es }, ?_, rfl, rfl, rfl,
          es, rfl, ?_⟩
  · simp only [pfx_stop, hcond, Bool.false_eq_true, if_false, h3, hdone, hdr]
  · intro e he
    rw [hes] at he
    exact hrec2 e he

/-- C1 witness: a stop over one zero-length in-flight frame followed by
the peer's marker drains it and returns the transport open. -/
theorem pfx_C1_witness :
    ∃ u, pfx_stop pfx_start
        { inbuf := (List.replicate 1 (dsock_putll 0)).flatten ++ (sentinelBytes ++ [9]),
          out := [], sendFail := false, closed := false, events := [] } 3 = Except.ok u ∧
      u.inbuf = [9] ∧
      u.out = [] ++ sentinelBytes ∧
      u.closed = false ∧
      ∃ es, u.events = [] ++ [TEvent.sent sentinelBytes (-1)] ++ es ∧
        ∀ e ∈ es, e.recvAt 3 :=
  pfx_C1_stop_drains_empty 1 pfx_start
    { inbuf := (List.replicate 1 (dsock_putll 0)).flatten ++ (sentinelBytes ++ [9]),
      out := [], sendFail := false, closed := false, events := [] } [9] 3
    rfl rfl rfl rfl rfl rfl
